import Mathlib

/-!
Shallow embedding of the route-tracer reconstruction pipeline.

The source is a pair of Vercel request handlers.  The geometric and
numeric parts are embedded over exact rationals (JS numbers are taken
with exact real-number semantics; the source's `Math.sqrt` comparisons
are embedded by comparing squared distances, which is equivalent since
the square root is strictly monotone on nonnegative reals).

JS truthiness matters in several places: `x || d` yields `d` when `x`
is `undefined` (missing) *or* `0` (or the empty string).  Missing
values are embedded as `Option`, and the `|| d` idiom as functions
that also map `0` / `""` to the default, exactly as the source does.
-/

namespace RouteTracer

/-- A raw JSON-ish coordinate value as decoded from the oracle
response: a finite number, a non-finite float, or a non-numeric JSON
value.  Only the validation boundary sees these. -/
inductive JsNum where
  | fin (q : ℚ)
  | nan
  | posInf
  | negInf
  | notNum
deriving DecidableEq

/-- A raw decoded waypoint entry (`key_waypoints` element) before any
validation: latitude/longitude may be arbitrary JSON values and the
elevation field may be absent. -/
structure RawWaypoint where
  lat : JsNum
  lng : JsNum
  elevation_ft : Option JsNum
deriving DecidableEq

/-- The waypoint validation in the handler:
`if (!waypoints || waypoints.length < 2) return res.status(422).json(...)`.
A missing (`undefined`/`null`) list or a list with fewer than 2 entries
is rejected with status 422; otherwise the very same list flows on.
There is no per-entry coordinate check in the source. -/
def validateWaypoints (kw : Option (List RawWaypoint)) :
    Except Nat (List RawWaypoint) :=
  match kw with
  | none => .error 422
  | some l => if l.length < 2 then .error 422 else .ok l

/-- A numeric waypoint as used by the geometry stages:
`{lat, lng, elevation_ft}` with the elevation possibly absent. -/
structure Waypoint where
  lat : ℚ
  lng : ℚ
  elevation_ft : Option ℚ
deriving DecidableEq

/-- A dense route point `[lat, lng, elev]`. -/
structure Pt where
  lat : ℚ
  lng : ℚ
  elev : ℚ
deriving DecidableEq

/-- The source idiom `wp.elevation_ft || 5300`: a missing elevation
*and* an elevation of exactly `0` (both falsy in JS) are replaced by
the constant 5300. -/
def elevOrDefault (w : Waypoint) : ℚ :=
  match w.elevation_ft with
  | none => 5300
  | some v => if v = 0 then 5300 else v

/-- Squared planar distance `(lat - wp.lat)^2 + (lng - wp.lng)^2`.
The source compares `Math.sqrt` of these; comparing the squares is
equivalent (square root is strictly monotone on nonnegatives). -/
def distSq (lat lng : ℚ) (w : Waypoint) : ℚ :=
  (lat - w.lat) ^ 2 + (lng - w.lng) ^ 2

/-- Is `d` strictly below the running minimum (`none` is the initial
`Infinity`)? -/
def ltMin (d : ℚ) : Option ℚ → Bool
  | none => true
  | some m => decide (d < m)

/-- The nearest-waypoint scan of the handler, state-passing form of
`let minDist = Infinity; let nearestElev = 5300; for (const wp of
waypoints) { const d = ...; if (d < minDist) { minDist = d;
nearestElev = wp.elevation_ft || 5300; } }`. -/
def scanNearest (lat lng : ℚ) : List Waypoint → Option ℚ → ℚ → ℚ
  | [], _, best => best
  | w :: rest, minDist, best =>
      let d := distSq lat lng w
      if ltMin d minDist then
        scanNearest lat lng rest (some d) (elevOrDefault w)
      else
        scanNearest lat lng rest minDist best

/-- Elevation assigned to a polyline point: elevation of the first
waypoint attaining the minimal distance, defaulted by `|| 5300`;
`5300` if the waypoint list is empty. -/
def nearestElev (lat lng : ℚ) (wps : List Waypoint) : ℚ :=
  scanNearest lat lng wps none 5300

/-- Nearest-neighbor elevation assignment over the routing-engine
geometry.  Engine coordinate pairs are `[lng, lat]` (GeoJSON order):
`c.1` is `coord[0]` (longitude) and `c.2` is `coord[1]` (latitude),
swapped into `[lat, lng, elev]`. -/
def assignElev (cs : List (ℚ × ℚ)) (wps : List Waypoint) : List Pt :=
  cs.map fun c => { lat := c.2, lng := c.1, elev := nearestElev c.2 c.1 wps }

/-- The in-place smoothing loop, tail of the pass:
`for (let i = 1; i < n-1; i++) a[i][2] = (a[i-1][2]+a[i][2]+a[i+1][2])/3`.
`prev` carries the already-written value of the predecessor slot; the
current and successor values are read from the unmodified tail.  A
final singleton is the last element, which the loop never writes. -/
def smoothGo (prev : ℚ) : List Pt → List Pt
  | [] => []
  | [p] => [p]
  | p :: q :: rest =>
      let e := (prev + p.elev + q.elev) / 3
      { lat := p.lat, lng := p.lng, elev := e } :: smoothGo e (q :: rest)

/-- The elevation smoothing pass.  The first element is never written
(the loop starts at index 1), and it seeds `prev`. -/
def smoothElev : List Pt → List Pt
  | [] => []
  | [p] => [p]
  | p :: rest => p :: smoothGo p.elev rest

/-- Linear interpolation `a + (b - a) * t`. -/
def lerp (a b t : ℚ) : ℚ := a + (b - a) * t

/-- The fallback step count before the minimum is applied:
`Math.round(dist / 0.002)` where `dist = Math.sqrt(Δlat² + Δlng²)`.
`Math.round x = ⌊x + 1/2⌋` for nonnegative `x`, and
`⌊sqrt r / 0.002 + 1/2⌋ = (⌊sqrt (10^6 r)⌋ + 1) / 2
                        = (Nat.sqrt ⌊10^6 r⌋ + 1) / 2`,
which is how it is computed here (proved equal to the rounded real
expression in the C8 theorem below). -/
def segStepsRaw (a b : Waypoint) : ℕ :=
  (Nat.sqrt ⌊(1000000 : ℚ) * ((b.lat - a.lat) ^ 2 + (b.lng - a.lng) ^ 2)⌋₊ + 1) / 2

/-- `const steps = Math.max(5, Math.round(dist / 0.002))`. -/
def segSteps (a b : Waypoint) : ℕ := max 5 (segStepsRaw a b)

/-- The inner fallback loop for one segment:
`for (let s = 0; s < steps; s++) { const t = s / steps; push(lerp...) }`. -/
def segPoints (a b : Waypoint) (steps : ℕ) : List Pt :=
  (List.range steps).map fun (s : ℕ) =>
    let t : ℚ := (s : ℚ) / (steps : ℚ)
    { lat := lerp a.lat b.lat t
      lng := lerp a.lng b.lng t
      elev := lerp (elevOrDefault a) (elevOrDefault b) t }

/-- The outer fallback loop over consecutive waypoint pairs. -/
def fallbackSegs : List Waypoint → List Pt
  | a :: b :: rest => segPoints a b (segSteps a b) ++ fallbackSegs (b :: rest)
  | _ => []

/-- The fallback interpolation: all segments, then the final waypoint
pushed once (`routeGeometry.push([last.lat, last.lng,
last.elevation_ft || 5300])`).  The handler only reaches this with at
least 2 waypoints; the empty case is unreachable there. -/
def fallbackGeometry (wps : List Waypoint) : List Pt :=
  match wps.getLast? with
  | none => []
  | some z => fallbackSegs wps ++ [{ lat := z.lat, lng := z.lng, elev := elevOrDefault z }]

/-- `const targetPoints = Math.max(150, waypoints.length * 3)`. -/
def targetPoints (n : ℕ) : ℕ := max 150 (n * 3)

/-- `const stepsPerSeg = Math.ceil(targetPoints / waypoints.length)`,
as a ceiling division on naturals (exact for the integer inputs the
source feeds it). -/
def stepsPerSeg (n : ℕ) : ℕ := (targetPoints n + n - 1) / n

/-- Componentwise linear interpolation of two dense points. -/
def lerpPt (a b : Pt) (t : ℚ) : Pt :=
  { lat := lerp a.lat b.lat t, lng := lerp a.lng b.lng t, elev := lerp a.elev b.elev t }

/-- The density interpolation loops: per consecutive pair, `steps`
points at `t = s / steps`. -/
def interpSegs (steps : ℕ) : List Pt → List Pt
  | a :: b :: rest =>
      ((List.range steps).map fun (s : ℕ) => lerpPt a b ((s : ℚ) / (steps : ℚ)))
        ++ interpSegs steps (b :: rest)
  | _ => []

/-- The density normalization of the non-snapping handler:
`if (waypoints.length < 100) { ... interpolated.push(last); waypoints
= interpolated; }` — sequences with at least 100 points pass through
unchanged, shorter ones are resampled and the last point re-appended. -/
def normalizeDensity (l : List Pt) : List Pt :=
  if l.length < 100 then
    match l.getLast? with
    | none => []
    | some z => interpSegs (stepsPerSeg l.length) l ++ [z]
  else l

/-- Outcome of the routing-engine fetch: a decoded body (status code
string plus optional `routes` array, each route reduced to its
`geometry.coordinates` list of `[lng, lat]` pairs), or a thrown
network/parse error caught by the surrounding `try`. -/
inductive FetchOutcome where
  | success (code : String) (routes : Option (List (List (ℚ × ℚ))))
  | thrown
deriving DecidableEq

/-- The guarded routing-engine branch:
`if (osrmData.code === 'Ok' && osrmData.routes && osrmData.routes.length > 0)`
assigns elevations and smooths; any other shape (or a thrown error)
leaves `routeGeometry` undefined. -/
def osrmGeometry (o : FetchOutcome) (wps : List Waypoint) : Option (List Pt) :=
  match o with
  | .thrown => none
  | .success code routes =>
      if code = "Ok" then
        match routes with
        | some (cs :: _) => some (smoothElev (assignElev cs wps))
        | _ => none
      else none

/-- `if (!routeGeometry || routeGeometry.length < 10)` — the fallback
replaces a missing or too-short snapped geometry. -/
def finalGeometry (o : FetchOutcome) (wps : List Waypoint) : List Pt :=
  match osrmGeometry o wps with
  | some g => if g.length < 10 then fallbackGeometry wps else g
  | none => fallbackGeometry wps

/-- Caller-supplied route metadata, each field possibly absent. -/
structure MetaInfo where
  route_name : Option String
  location : Option String
  confidence : Option ℚ
  notes : Option String
deriving DecidableEq

/-- The response object assembled at the end of the handler. -/
structure RouteResult where
  route_name : String
  location : String
  confidence : ℚ
  notes : String
  waypoints : List Pt
deriving DecidableEq

/-- The JS `s || d` default for strings: missing *and* empty are
replaced. -/
def strOr (o : Option String) (d : String) : String :=
  match o with
  | none => d
  | some s => if s = "" then d else s

/-- The JS `v || d` default for numbers: missing *and* zero are
replaced. -/
def numOr (o : Option ℚ) (d : ℚ) : ℚ :=
  match o with
  | none => d
  | some v => if v = 0 then d else v

/-- `res.status(200).json({route_name: routeInfo.route_name || 'Extracted
Route', location: ... || 'Unknown', confidence: ... || 0.5, notes: ...
|| '', waypoints: routeGeometry})`. -/
def assembleResult (m : MetaInfo) (g : List Pt) : RouteResult :=
  { route_name := strOr m.route_name "Extracted Route"
    location := strOr m.location "Unknown"
    confidence := numOr m.confidence (1 / 2)
    notes := strOr m.notes ""
    waypoints := g }

/-- The snapping handler from validation on: reject a missing or
short waypoint list with 422, otherwise answer 200 with the assembled
result over the snapped-or-fallback geometry. -/
def runPipeline (m : MetaInfo) (kw : Option (List Waypoint)) (o : FetchOutcome) :
    Except Nat RouteResult :=
  match kw with
  | none => .error 422
  | some wps =>
      if wps.length < 2 then .error 422
      else .ok (assembleResult m (finalGeometry o wps))

/-- Elevation of the `i`-th element of a dense polyline, if present. -/
def elevAt (l : List Pt) (i : ℕ) : Option ℚ := (l.get? i).map Pt.elev

theorem smoothGo_length (prev : ℚ) (l : List Pt) :
    (smoothGo prev l).length = l.length := by
  induction l generalizing prev with
  | nil => rfl
  | cons p rest ih =>
    cases rest with
    | nil => rfl
    | cons q rest2 => simp [smoothGo, ih]

theorem smoothElev_length (l : List Pt) : (smoothElev l).length = l.length := by
  cases l with
  | nil => rfl
  | cons p rest =>
    cases rest with
    | nil => rfl
    | cons q rest2 => simp [smoothElev, smoothGo_length]

theorem smoothGo_map_latlng (prev : ℚ) (l : List Pt) :
    (smoothGo prev l).map (fun p => (p.lat, p.lng)) =
      l.map fun p => (p.lat, p.lng) := by
  induction l generalizing prev with
  | nil => rfl
  | cons p rest ih =>
    cases rest with
    | nil => rfl
    | cons q rest2 => simp [smoothGo, ih]

theorem smoothElev_map_latlng (l : List Pt) :
    (smoothElev l).map (fun p => (p.lat, p.lng)) =
      l.map fun p => (p.lat, p.lng) := by
  cases l with
  | nil => rfl
  | cons p rest =>
    cases rest with
    | nil => rfl
    | cons q rest2 => simp [smoothElev, smoothGo_map_latlng]

theorem assignElev_length (cs : List (ℚ × ℚ)) (wps : List Waypoint) :
    (assignElev cs wps).length = cs.length := by
  simp [assignElev]

theorem assignElev_map_latlng (cs : List (ℚ × ℚ)) (wps : List Waypoint) :
    (assignElev cs wps).map (fun p => (p.lat, p.lng)) =
      cs.map fun c => (c.2, c.1) := by
  simp [assignElev, List.map_map, Function.comp]

/-- Claim C10 (confirmed): on the road-snapping path the elevation
stages are a frame over latitude/longitude — the smoothed, assigned
geometry has exactly one point per engine coordinate, and its
latitude/longitude are exactly the axis-swapped engine pairs
(`[lng, lat]` to `[lat, lng]`); neither stage adds, removes or moves
a point. -/
theorem c10_frame (cs : List (ℚ × ℚ)) (wps : List Waypoint) :
    (smoothElev (assignElev cs wps)).length = cs.length ∧
    (smoothElev (assignElev cs wps)).map (fun p => (p.lat, p.lng)) =
      cs.map fun c => (c.2, c.1) := by
  constructor
  · rw [smoothElev_length, assignElev_length]
  · rw [smoothElev_map_latlng, assignElev_map_latlng]

theorem smoothGo_elev_rec (a x y : ℚ) :
    ∀ (l : List Pt) (prev : ℚ) (k : ℕ), k + 1 < l.length →
      (if k = 0 then some prev else elevAt (smoothGo prev l) (k - 1)) = some a →
      elevAt l k = some x → elevAt l (k + 1) = some y →
      elevAt (smoothGo prev l) k = some ((a + x + y) / 3) := by
  intro l
  induction l with
  | nil => intro prev k hk _ _ _; simp at hk
  | cons p rest ih =>
    intro prev k hk ha hx hy
    cases rest with
    | nil => simp at hk
    | cons q rest2 =>
      cases k with
      | zero =>
        have haa : prev = a := by simpa using ha
        have hxx : p.elev = x := by simpa [elevAt] using hx
        have hyy : q.elev = y := by simpa [elevAt] using hy
        subst haa hxx hyy
        simp [smoothGo, elevAt]
      | succ k0 =>
        have hk2 : k0 + 1 < (q :: rest2).length := by
          simpa using Nat.lt_of_succ_lt_succ hk
        have hstep : smoothGo prev (p :: q :: rest2) =
            ({ lat := p.lat, lng := p.lng,
               elev := (prev + p.elev + q.elev) / 3 } : Pt) ::
              smoothGo ((prev + p.elev + q.elev) / 3) (q :: rest2) := rfl
        have ha2 : (if k0 = 0 then some ((prev + p.elev + q.elev) / 3)
            else elevAt (smoothGo ((prev + p.elev + q.elev) / 3) (q :: rest2))
              (k0 - 1)) = some a := by
          rw [if_neg (Nat.succ_ne_zero k0), hstep] at ha
          cases k0 with
          | zero =>
            simpa [elevAt] using ha
          | succ j =>
            simpa [elevAt, List.get?_cons_succ] using ha
        have hx2 : elevAt (q :: rest2) k0 = some x := by
          simpa [elevAt, List.get?_cons_succ] using hx
        have hy2 : elevAt (q :: rest2) (k0 + 1) = some y := by
          simpa [elevAt, List.get?_cons_succ] using hy
        have := ih ((prev + p.elev + q.elev) / 3) k0 hk2 ha2 hx2 hy2
        rw [hstep]
        simpa [elevAt, List.get?_cons_succ] using this

/-- Claim C1 (corrected): the smoothing pass is in place, left to
right — a smoothed interior elevation is the mean of the
already-smoothed predecessor and the pre-smoothing values of itself
and its successor, not the mean of three pre-smoothing values.  For a
3-point sequence `[A, B, C]` the two semantics coincide and the
smoothed middle is `(A + B + C) / 3`. -/
theorem c1_smoothing_amended :
    (∀ p0 p1 p2 : Pt, (smoothElev [p0, p1, p2]).map Pt.elev =
      [p0.elev, (p0.elev + p1.elev + p2.elev) / 3, p2.elev]) ∧
    (∀ (g : List Pt) (i : ℕ), 1 ≤ i → i + 1 < g.length →
      ∀ a x y : ℚ, elevAt (smoothElev g) (i - 1) = some a →
        elevAt g i = some x → elevAt g (i + 1) = some y →
        elevAt (smoothElev g) i = some ((a + x + y) / 3)) := by
  constructor
  · intro p0 p1 p2
    simp [smoothElev, smoothGo]
  · intro g i hi hlen a x y ha hx hy
    cases g with
    | nil => simp at hlen
    | cons p rest =>
      cases rest with
      | nil =>
        simp only [List.length_cons, List.length_nil] at hlen
        omega
      | cons q rest2 =>
        obtain ⟨i0, rfl⟩ : ∃ i0, i = i0 + 1 :=
          ⟨i - 1, (Nat.succ_pred_eq_of_pos hi).symm⟩
        have hsm : smoothElev (p :: q :: rest2) =
            p :: smoothGo p.elev (q :: rest2) := rfl
        have hk : i0 + 1 < (q :: rest2).length := by
          simp only [List.length_cons] at hlen ⊢
          omega
        have ha2 : (if i0 = 0 then some p.elev
            else elevAt (smoothGo p.elev (q :: rest2)) (i0 - 1)) = some a := by
          rw [hsm] at ha
          simp only [Nat.add_sub_cancel] at ha
          cases i0 with
          | zero => simpa [elevAt] using ha
          | succ j => simpa [elevAt, List.get?_cons_succ] using ha
        have hx2 : elevAt (q :: rest2) i0 = some x := by
          simpa [elevAt, List.get?_cons_succ] using hx
        have hy2 : elevAt (q :: rest2) (i0 + 1) = some y := by
          simpa [elevAt, List.get?_cons_succ] using hy
        have := smoothGo_elev_rec a x y (q :: rest2) p.elev i0 hk ha2 hx2 hy2
        rw [hsm]
        simpa [elevAt, List.get?_cons_succ] using this

/-- Witness for C1: on the concrete assigned 3-point polyline with
elevations `[3, 6, 9]` the smoothed middle is `(3 + 6 + 9) / 3`. -/
theorem c1_smoothing_witness :
    elevAt (smoothElev [⟨0, 0, 3⟩, ⟨0, 0, 6⟩, ⟨0, 0, 9⟩]) 1 =
      some ((3 + 6 + 9) / 3) := by
  have h := c1_smoothing_amended.2 [⟨0, 0, 3⟩, ⟨0, 0, 6⟩, ⟨0, 0, 9⟩] 1
    (by decide) (by decide) 3 6 9 (by with_unfolding_all rfl)
    (by with_unfolding_all rfl) (by with_unfolding_all rfl)
  exact h

/-- Counterexample for C1 as stated: after nearest-neighbor assignment
the pre-smoothing elevations are `[3, 3, 9, 3]`, but the smoothed
value at index 2 is `17/3`, not the snapshot mean `(3 + 9 + 3) / 3 = 5`:
the pass reads the already-smoothed predecessor `5`. -/
theorem c1_smoothing_cex :
    elevAt (smoothElev (assignElev [(0, 0), (0, 1), (0, 9), (0, 1)]
        [⟨0, 0, some 3⟩, ⟨10, 0, some 9⟩])) 2 = some (17 / 3) ∧
    elevAt (assignElev [(0, 0), (0, 1), (0, 9), (0, 1)]
        [⟨0, 0, some 3⟩, ⟨10, 0, some 9⟩]) 1 = some 3 ∧
    elevAt (assignElev [(0, 0), (0, 1), (0, 9), (0, 1)]
        [⟨0, 0, some 3⟩, ⟨10, 0, some 9⟩]) 2 = some 9 ∧
    elevAt (assignElev [(0, 0), (0, 1), (0, 9), (0, 1)]
        [⟨0, 0, some 3⟩, ⟨10, 0, some 9⟩]) 3 = some 3 ∧
    (17 / 3 : ℚ) ≠ (3 + 9 + 3) / 3 := by
  refine ⟨by with_unfolding_all rfl, by with_unfolding_all rfl,
    by with_unfolding_all rfl, by with_unfolding_all rfl, by norm_num⟩

/-- A well-formed raw waypoint entry, for the C2 statements. -/
def c2good : RawWaypoint :=
  { lat := .fin 1, lng := .fin 2, elevation_ft := some (.fin 1000) }

/-- A malformed raw waypoint entry (non-finite latitude). -/
def c2bad : RawWaypoint := { lat := .nan, lng := .fin 0, elevation_ft := none }

/-- Claim C2 (corrected): the validator only guards against a missing
list or one with fewer than 2 entries (status 422); it performs no
per-entry coordinate check, so on any list of length at least 2 it
returns the list unchanged — including entries whose latitude or
longitude is non-finite or non-numeric, which therefore do reach the
geometry stages. -/
theorem c2_validator_amended (kw : Option (List RawWaypoint)) :
    (kw = none → validateWaypoints kw = .error 422) ∧
    (∀ l, kw = some l → l.length < 2 → validateWaypoints kw = .error 422) ∧
    (∀ l, kw = some l → 2 ≤ l.length → validateWaypoints kw = .ok l) := by
  refine ⟨?_, ?_, ?_⟩
  · rintro rfl; rfl
  · rintro l rfl h
    simp only [validateWaypoints]
    rw [if_pos h]
  · rintro l rfl h
    simp only [validateWaypoints]
    rw [if_neg (by omega)]

/-- Witness for C2: a 2-entry list passes through unchanged. -/
theorem c2_validator_witness :
    validateWaypoints (some [c2good, c2good]) = .ok [c2good, c2good] :=
  (c2_validator_amended (some [c2good, c2good])).2.2 [c2good, c2good]
    rfl (by decide)

/-- Counterexample for C2 as stated: a 2-entry list whose second entry
has a non-finite (NaN) latitude is accepted and returned unchanged —
no `MalformedWaypoint` failure occurs and the malformed entry reaches
the geometry stages. -/
theorem c2_validator_cex :
    validateWaypoints (some [c2good, c2bad]) = .ok [c2good, c2bad] ∧
    c2bad.lat = JsNum.nan := ⟨rfl, rfl⟩

/-- The failing input for C3: a minimal valid 2-point sequence. -/
def c3pair : List Pt := [⟨0, 0, 0⟩, ⟨0, 0, 0⟩]

/-- Claim C3 (code_bug): for a 2-point input the resampler emits
`(2 - 1) * ceil(max(150, 6) / 2) + 1 = 76` points — below the 100-point
minimum the code itself promises ("ensure at least 100 points") — so a
second application resamples again (to 226 points) instead of being
the identity. -/
theorem c3_density_code_bug :
    (normalizeDensity c3pair).length = 76 ∧
    (normalizeDensity c3pair).length < 100 ∧
    (normalizeDensity (normalizeDensity c3pair)).length = 226 ∧
    normalizeDensity (normalizeDensity c3pair) ≠ normalizeDensity c3pair := by
  have h76 : (normalizeDensity c3pair).length = 76 := by
    with_unfolding_all rfl
  have h226 : (normalizeDensity (normalizeDensity c3pair)).length = 226 := by
    with_unfolding_all rfl
  refine ⟨h76, by omega, h226, ?_⟩
  intro h
  have h2 := congrArg List.length h
  rw [h76, h226] at h2
  exact absurd h2 (by norm_num)

/-- The metadata of the C7 counterexample: supplied boundary
confidence `0`. -/
def c7meta : MetaInfo :=
  { route_name := none, location := none, confidence := some 0, notes := none }

/-- Metadata with all fields supplied and truthy, for the C7 witness. -/
def c7wit : MetaInfo :=
  { route_name := some "Ridge Loop", location := some "Boulder"
    confidence := some (3 / 4), notes := some "clear" }

/-- Claim C7 (corrected): missing metadata fields get the documented
placeholders, and supplied *truthy* values are preserved; but the
defaulting uses JS `||`, so a supplied confidence of exactly `0` (a
boundary value of `[0,1]`) and supplied empty-string name/location are
replaced by their placeholders rather than preserved (for notes the
placeholder coincides with the empty string). -/
theorem c7_metadata_amended (m : MetaInfo) (g : List Pt) :
    ((assembleResult m g).waypoints = g) ∧
    (m.route_name = none → (assembleResult m g).route_name = "Extracted Route") ∧
    (∀ s, m.route_name = some s → s ≠ "" → (assembleResult m g).route_name = s) ∧
    (m.route_name = some "" → (assembleResult m g).route_name = "Extracted Route") ∧
    (m.location = none → (assembleResult m g).location = "Unknown") ∧
    (∀ s, m.location = some s → s ≠ "" → (assembleResult m g).location = s) ∧
    (m.location = some "" → (assembleResult m g).location = "Unknown") ∧
    (m.confidence = none → (assembleResult m g).confidence = 1 / 2) ∧
    (∀ v, m.confidence = some v → v ≠ 0 → (assembleResult m g).confidence = v) ∧
    (m.confidence = some 0 → (assembleResult m g).confidence = 1 / 2) ∧
    (m.notes = none → (assembleResult m g).notes = "") ∧
    (∀ s, m.notes = some s → s ≠ "" → (assembleResult m g).notes = s) ∧
    (m.notes = some "" → (assembleResult m g).notes = "") := by
  refine ⟨rfl, fun h => ?_, fun s hs hne => ?_, fun h => ?_, fun h => ?_,
    fun s hs hne => ?_, fun h => ?_, fun h => ?_, fun v hv hne => ?_,
    fun h => ?_, fun h => ?_, fun s hs hne => ?_, fun h => ?_⟩ <;>
    simp_all [assembleResult, strOr, numOr]

/-- Witness for C7: a supplied nonzero confidence is preserved. -/
theorem c7_metadata_witness : (assembleResult c7wit []).confidence = 3 / 4 :=
  (c7_metadata_amended c7wit []).2.2.2.2.2.2.2.2.1 (3 / 4) rfl (by norm_num)

/-- Counterexample for C7 as stated: supplying the boundary confidence
`0` does not preserve it — the response carries the placeholder `0.5`. -/
theorem c7_metadata_cex :
    (assembleResult c7meta []).confidence = 1 / 2 ∧ (0 : ℚ) ≠ 1 / 2 := by
  refine ⟨by with_unfolding_all rfl, by norm_num⟩

theorem scanNearest_cons_lt {lat lng m e : ℚ} {w : Waypoint}
    {rest : List Waypoint} (hd : distSq lat lng w < m) :
    scanNearest lat lng (w :: rest) (some m) e =
      scanNearest lat lng rest (some (distSq lat lng w)) (elevOrDefault w) := by
  simp [scanNearest, ltMin, hd]

theorem scanNearest_cons_ge {lat lng m e : ℚ} {w : Waypoint}
    {rest : List Waypoint} (hd : ¬ distSq lat lng w < m) :
    scanNearest lat lng (w :: rest) (some m) e =
      scanNearest lat lng rest (some m) e := by
  simp [scanNearest, ltMin, hd]

theorem scanNearest_char (lat lng : ℚ) :
    ∀ (l : List Waypoint) (m e : ℚ),
      (scanNearest lat lng l (some m) e = e ∧
        ∀ w ∈ l, m ≤ distSq lat lng w) ∨
      (∃ i w, l.get? i = some w ∧
        scanNearest lat lng l (some m) e = elevOrDefault w ∧
        distSq lat lng w < m ∧
        (∀ w1 ∈ l, distSq lat lng w ≤ distSq lat lng w1) ∧
        (∀ j w1, j < i → l.get? j = some w1 →
          distSq lat lng w < distSq lat lng w1)) := by
  intro l
  induction l with
  | nil => intro m e; left; exact ⟨rfl, by simp⟩
  | cons w rest ih =>
    intro m e
    by_cases hd : distSq lat lng w < m
    · rcases ih (distSq lat lng w) (elevOrDefault w) with
        ⟨hres, hmin⟩ | ⟨i, w2, hget, hres, hlt, hmin, hfirst⟩
      · right
        refine ⟨0, w, rfl, by rw [scanNearest_cons_lt hd, hres], hd, ?_, ?_⟩
        · intro w1 hw1
          rcases List.mem_cons.mp hw1 with rfl | hw1
          · exact le_refl _
          · exact hmin w1 hw1
        · intro j w1 hj _
          exact absurd hj (Nat.not_lt_zero j)
      · right
        refine ⟨i + 1, w2, by simpa using hget,
          by rw [scanNearest_cons_lt hd, hres], lt_trans hlt hd, ?_, ?_⟩
        · intro w1 hw1
          rcases List.mem_cons.mp hw1 with rfl | hw1
          · exact le_of_lt hlt
          · exact hmin w1 hw1
        · intro j w1 hj hget1
          cases j with
          | zero =>
            simp only [List.get?_cons_zero, Option.some.injEq] at hget1
            subst hget1
            exact hlt
          | succ j0 =>
            exact hfirst j0 w1 (by omega) (by simpa using hget1)
    · rcases ih m e with
        ⟨hres, hmin⟩ | ⟨i, w2, hget, hres, hlt, hmin, hfirst⟩
      · left
        refine ⟨by rw [scanNearest_cons_ge hd, hres], ?_⟩
        intro w1 hw1
        rcases List.mem_cons.mp hw1 with rfl | hw1
        · exact le_of_not_lt hd
        · exact hmin w1 hw1
      · right
        refine ⟨i + 1, w2, by simpa using hget,
          by rw [scanNearest_cons_ge hd, hres], hlt, ?_, ?_⟩
        · intro w1 hw1
          rcases List.mem_cons.mp hw1 with rfl | hw1
          · exact le_trans (le_of_lt hlt) (le_of_not_lt hd)
          · exact hmin w1 hw1
        · intro j w1 hj hget1
          cases j with
          | zero =>
            simp only [List.get?_cons_zero, Option.some.injEq] at hget1
            subst hget1
            exact lt_of_lt_of_le hlt (le_of_not_lt hd)
          | succ j0 =>
            exact hfirst j0 w1 (by omega) (by simpa using hget1)

theorem nearestElev_char (lat lng : ℚ) (wps : List Waypoint) (h : wps ≠ []) :
    ∃ i w, wps.get? i = some w ∧
      nearestElev lat lng wps = elevOrDefault w ∧
      (∀ w1 ∈ wps, distSq lat lng w ≤ distSq lat lng w1) ∧
      (∀ j w1, j < i → wps.get? j = some w1 →
        distSq lat lng w < distSq lat lng w1) := by
  cases wps with
  | nil => exact absurd rfl h
  | cons w rest =>
    have hstep : nearestElev lat lng (w :: rest) =
        scanNearest lat lng rest (some (distSq lat lng w)) (elevOrDefault w) := by
      simp [nearestElev, scanNearest, ltMin]
    rcases scanNearest_char lat lng rest (distSq lat lng w) (elevOrDefault w) with
      ⟨hres, hmin⟩ | ⟨i, w2, hget, hres, hlt, hmin, hfirst⟩
    · refine ⟨0, w, rfl, by rw [hstep, hres], ?_, ?_⟩
      · intro w1 hw1
        rcases List.mem_cons.mp hw1 with rfl | hw1
        · exact le_refl _
        · exact hmin w1 hw1
      · intro j w1 hj _
        exact absurd hj (Nat.not_lt_zero j)
    · refine ⟨i + 1, w2, by simpa using hget, by rw [hstep, hres], ?_, ?_⟩
      · intro w1 hw1
        rcases List.mem_cons.mp hw1 with rfl | hw1
        · exact le_of_lt hlt
        · exact hmin w1 hw1
      · intro j w1 hj hget1
        cases j with
        | zero =>
          simp only [List.get?_cons_zero, Option.some.injEq] at hget1
          subst hget1
          exact hlt
        | succ j0 =>
          exact hfirst j0 w1 (by omega) (by simpa using hget1)

/-- Claim C9 (corrected): nearest-neighbor assignment picks the first
waypoint (in list order) at minimal planar distance, and contributes
`elevOrDefault` of it — which is the waypoint's own elevation when
that elevation is present *and nonzero*, and the default `5300` when
the elevation is missing *or exactly zero* (the JS `|| 5300` treats
`0` as falsy). -/
theorem c9_nearest_amended (lat lng : ℚ) (wps : List Waypoint) (h : wps ≠ []) :
    ∃ i w, wps.get? i = some w ∧
      nearestElev lat lng wps = elevOrDefault w ∧
      (∀ w1 ∈ wps, distSq lat lng w ≤ distSq lat lng w1) ∧
      (∀ j w1, j < i → wps.get? j = some w1 →
        distSq lat lng w < distSq lat lng w1) ∧
      (w.elevation_ft = none → elevOrDefault w = 5300) ∧
      (∀ v, w.elevation_ft = some v → v ≠ 0 → elevOrDefault w = v) ∧
      (w.elevation_ft = some 0 → elevOrDefault w = 5300) := by
  obtain ⟨i, w, h1, h2, h3, h4⟩ := nearestElev_char lat lng wps h
  refine ⟨i, w, h1, h2, h3, h4, ?_, ?_, ?_⟩
  · intro hn; simp [elevOrDefault, hn]
  · intro v hv hvne; simp [elevOrDefault, hv, hvne]
  · intro hv; simp [elevOrDefault, hv]

/-- The C9 waypoint list: the nearest waypoint carries elevation `0`. -/
def c9wps : List Waypoint := [⟨0, 0, some 0⟩, ⟨5, 5, some 100⟩]

/-- Witness for C9 at the concrete point `(0, 0)` and list `c9wps`. -/
theorem c9_nearest_witness :
    ∃ i w, c9wps.get? i = some w ∧
      nearestElev 0 0 c9wps = elevOrDefault w ∧
      (∀ w1 ∈ c9wps, distSq 0 0 w ≤ distSq 0 0 w1) ∧
      (∀ j w1, j < i → c9wps.get? j = some w1 →
        distSq 0 0 w < distSq 0 0 w1) ∧
      (w.elevation_ft = none → elevOrDefault w = 5300) ∧
      (∀ v, w.elevation_ft = some v → v ≠ 0 → elevOrDefault w = v) ∧
      (w.elevation_ft = some 0 → elevOrDefault w = 5300) :=
  c9_nearest_amended 0 0 c9wps (by simp [c9wps])

/-- Counterexample for C9 as stated: the strictly nearest waypoint
(index 0, distance 0 against 50) has the *present* elevation `0`, yet
the assigned elevation is the default `5300`, not the waypoint's
elevation. -/
theorem c9_nearest_cex :
    nearestElev 0 0 c9wps = 5300 ∧
    c9wps.get? 0 = some ⟨0, 0, some 0⟩ ∧
    distSq 0 0 ⟨0, 0, some 0⟩ = 0 ∧
    distSq 0 0 ⟨5, 5, some 100⟩ = 50 ∧
    (0 : ℚ) < 50 ∧
    (5300 : ℚ) ≠ 0 := by
  refine ⟨by with_unfolding_all rfl, rfl, by norm_num [distSq],
    by norm_num [distSq], by norm_num, by norm_num⟩

theorem smoothGo_bounds (lo hi : ℚ) :
    ∀ (l : List Pt) (prev : ℚ), lo ≤ prev → prev ≤ hi →
      (∀ p ∈ l, lo ≤ p.elev ∧ p.elev ≤ hi) →
      ∀ q ∈ smoothGo prev l, lo ≤ q.elev ∧ q.elev ≤ hi := by
  intro l
  induction l with
  | nil => intro prev _ _ _ q hq; simp [smoothGo] at hq
  | cons p rest ih =>
    intro prev h1 h2 hall q hq
    cases rest with
    | nil =>
      simp only [smoothGo, List.mem_singleton] at hq
      subst hq
      exact hall q (by simp)
    | cons r rest2 =>
      rw [show smoothGo prev (p :: r :: rest2) =
          ({ lat := p.lat, lng := p.lng,
             elev := (prev + p.elev + r.elev) / 3 } : Pt) ::
            smoothGo ((prev + p.elev + r.elev) / 3) (r :: rest2) from rfl] at hq
      have hp := hall p (by simp)
      have hr := hall r (by simp)
      have hmid1 : lo ≤ (prev + p.elev + r.elev) / 3 := by
        have := hp.1
        have := hr.1
        linarith
      have hmid2 : (prev + p.elev + r.elev) / 3 ≤ hi := by
        have := hp.2
        have := hr.2
        linarith
      rcases List.mem_cons.mp hq with rfl | hq
      · exact ⟨hmid1, hmid2⟩
      · exact ih ((prev + p.elev + r.elev) / 3) hmid1 hmid2
          (fun p2 hp2 => hall p2 (by simp [hp2])) q hq

theorem smoothElev_bounds (lo hi : ℚ) (l : List Pt)
    (hall : ∀ p ∈ l, lo ≤ p.elev ∧ p.elev ≤ hi) :
    ∀ q ∈ smoothElev l, lo ≤ q.elev ∧ q.elev ≤ hi := by
  cases l with
  | nil => intro q hq; simp [smoothElev] at hq
  | cons p rest =>
    cases rest with
    | nil =>
      intro q hq
      simp only [smoothElev, List.mem_singleton] at hq
      subst hq
      exact hall q (by simp)
    | cons r rest2 =>
      intro q hq
      rw [show smoothElev (p :: r :: rest2) =
          p :: smoothGo p.elev (r :: rest2) from rfl] at hq
      rcases List.mem_cons.mp hq with rfl | hq
      · exact hall q (by simp)
      · exact smoothGo_bounds lo hi (r :: rest2) p.elev
          (hall p (by simp)).1 (hall p (by simp)).2
          (fun p2 hp2 => hall p2 (by simp [hp2])) q hq

theorem assignElev_bounds (cs : List (ℚ × ℚ)) (wps : List Waypoint)
    (h : wps ≠ []) (lo hi : ℚ)
    (hlo : ∀ w ∈ wps, lo ≤ elevOrDefault w)
    (hhi : ∀ w ∈ wps, elevOrDefault w ≤ hi) :
    ∀ p ∈ assignElev cs wps, lo ≤ p.elev ∧ p.elev ≤ hi := by
  intro p hp
  simp only [assignElev, List.mem_map] at hp
  obtain ⟨c, _, rfl⟩ := hp
  obtain ⟨i, w, hget, heq, _, _⟩ := nearestElev_char c.2 c.1 wps h
  have hw : w ∈ wps := List.get?_mem hget
  constructor
  · simpa [heq] using hlo w hw
  · simpa [heq] using hhi w hw

/-- Claim C4 (corrected): every output elevation of the elevation
stages lies within `[min, max]` of the *defaulted* waypoint elevations
(each waypoint's elevation with a missing-or-zero value replaced by
5300); when no default substitution occurs these are exactly the
waypoints' own elevations, recovering the claimed bound.  But when a
substitution does occur, smoothing averages the default into real
values, so an output elevation can be strictly outside `[min, max]` of
the waypoints' elevations *and* different from 5300 (see the
counterexample).  Finiteness is automatic in the exact-arithmetic
embedding. -/
theorem c4_elev_bounds_amended (cs : List (ℚ × ℚ)) (wps : List Waypoint)
    (lo hi : ℚ)
    (hlo1 : lo ∈ wps.map elevOrDefault)
    (hlo2 : ∀ e ∈ wps.map elevOrDefault, lo ≤ e)
    (hhi1 : hi ∈ wps.map elevOrDefault)
    (hhi2 : ∀ e ∈ wps.map elevOrDefault, e ≤ hi) :
    (∀ p ∈ smoothElev (assignElev cs wps), lo ≤ p.elev ∧ p.elev ≤ hi) ∧
    (∀ w : Waypoint, ∀ v : ℚ, w.elevation_ft = some v → v ≠ 0 →
      elevOrDefault w = v) := by
  have hne : wps ≠ [] := by
    intro h
    subst h
    simp at hlo1
  constructor
  · exact smoothElev_bounds lo hi _ (assignElev_bounds cs wps hne lo hi
      (fun w hw => hlo2 _ (List.mem_map_of_mem _ hw))
      (fun w hw => hhi2 _ (List.mem_map_of_mem _ hw)))
  · intro w v hv hvne
    simp [elevOrDefault, hv, hvne]

/-- The C4 waypoints: one real elevation (1000) and one missing. -/
def c4wps : List Waypoint := [⟨0, 0, some 1000⟩, ⟨10, 0, none⟩]

/-- The C4 engine coordinates (`[lng, lat]` pairs). -/
def c4cs : List (ℚ × ℚ) := [(0, 0), (0, 9), (0, 10)]

/-- Witness for C4 on the concrete run: all output elevations lie in
`[1000, 5300]`, the min/max of the defaulted waypoint elevations. -/
theorem c4_elev_bounds_witness :
    (∀ p ∈ smoothElev (assignElev c4cs c4wps),
      1000 ≤ p.elev ∧ p.elev ≤ 5300) ∧
    (∀ w : Waypoint, ∀ v : ℚ, w.elevation_ft = some v → v ≠ 0 →
      elevOrDefault w = v) :=
  c4_elev_bounds_amended c4cs c4wps 1000 5300
    (by norm_num [c4wps, elevOrDefault])
    (by norm_num [c4wps, elevOrDefault])
    (by norm_num [c4wps, elevOrDefault])
    (by norm_num [c4wps, elevOrDefault])

/-- Counterexample for C4 as stated: with waypoint elevations
`[1000, missing]` (so `[min, max] = [1000, 1000]` over the inputs'
elevations) the smoothed middle elevation is `11600/3`, which is
neither within `[1000, 1000]` nor equal to the default 5300. -/
theorem c4_elev_bounds_cex :
    elevAt (smoothElev (assignElev c4cs c4wps)) 1 = some (11600 / 3) ∧
    c4wps.map Waypoint.elevation_ft = [some 1000, none] ∧
    ¬ ((1000 : ℚ) ≤ 11600 / 3 ∧ (11600 : ℚ) / 3 ≤ 1000) ∧
    (11600 / 3 : ℚ) ≠ 5300 := by
  refine ⟨by with_unfolding_all rfl, rfl, by norm_num, by norm_num⟩

theorem segPoints_length (a b : Waypoint) (steps : ℕ) :
    (segPoints a b steps).length = steps := by
  rw [segPoints, List.length_map, List.length_range]

theorem segPoints_head (a b : Waypoint) (steps : ℕ) (h : 0 < steps) :
    (segPoints a b steps).head? =
      some { lat := a.lat, lng := a.lng, elev := elevOrDefault a } := by
  cases steps with
  | zero => omega
  | succ n =>
    rw [segPoints, List.range_succ_eq_map]
    simp [lerp]

theorem segPoints_ne_nil (a b : Waypoint) (steps : ℕ) (h : 0 < steps) :
    segPoints a b steps ≠ [] := by
  intro hnil
  have := segPoints_length a b steps
  rw [hnil] at this
  simp at this
  omega

/-- Claim C5 (corrected): the fallback output starts at the first
waypoint and ends at the last, with exact equality on latitude and
longitude, and the final point appended exactly once; the elevations
of those endpoints are the waypoints' *defaulted* elevations — equal
to the waypoints' own elevations whenever those are present and
nonzero, and the constant 5300 when missing or zero (JS `|| 5300`). -/
theorem c5_fallback_endpoints_amended (wps : List Waypoint) (a z : Waypoint)
    (h2 : 2 ≤ wps.length) (ha : wps.head? = some a)
    (hz : wps.getLast? = some z) :
    (fallbackGeometry wps).head? =
      some { lat := a.lat, lng := a.lng, elev := elevOrDefault a } ∧
    (∃ l1 : List Pt, fallbackGeometry wps =
      l1 ++ [{ lat := z.lat, lng := z.lng, elev := elevOrDefault z }]) ∧
    (fallbackGeometry wps).getLast? =
      some { lat := z.lat, lng := z.lng, elev := elevOrDefault z } ∧
    (∀ w : Waypoint, ∀ v : ℚ, w.elevation_ft = some v → v ≠ 0 →
      elevOrDefault w = v) := by
  have hgeom : fallbackGeometry wps =
      fallbackSegs wps ++ [{ lat := z.lat, lng := z.lng, elev := elevOrDefault z }] := by
    simp only [fallbackGeometry, hz]
  refine ⟨?_, ⟨fallbackSegs wps, hgeom⟩, ?_, ?_⟩
  · cases wps with
    | nil => simp at h2
    | cons w rest =>
      cases rest with
      | nil => simp at h2
      | cons b rest2 =>
        have haw : w = a := by simpa using ha
        subst haw
        rw [hgeom]
        have hs : fallbackSegs (w :: b :: rest2) =
            segPoints w b (segSteps w b) ++ fallbackSegs (b :: rest2) := rfl
        have hpos : 0 < segSteps w b :=
          lt_of_lt_of_le (by norm_num) (le_max_left 5 (segStepsRaw w b))
        rw [hs, List.append_assoc,
          List.head?_append_of_ne_nil _ (segPoints_ne_nil w b _ hpos),
          segPoints_head w b _ hpos]
  · rw [hgeom, List.getLast?_append_cons]
    rfl
  · intro w v hv hvne
    simp [elevOrDefault, hv, hvne]

/-- The C5 waypoints: close together (so the minimum of 5 steps
applies) and with the last elevation exactly `0`. -/
def c5wps : List Waypoint := [⟨0, 0, some 1⟩, ⟨0, 1 / 1000, some 0⟩]

/-- Witness for C5 on the concrete 2-waypoint list. -/
theorem c5_fallback_endpoints_witness :
    (fallbackGeometry c5wps).head? =
      some { lat := 0, lng := 0, elev := elevOrDefault ⟨0, 0, some 1⟩ } ∧
    (∃ l1 : List Pt, fallbackGeometry c5wps =
      l1 ++ [{ lat := 0, lng := 1 / 1000,
               elev := elevOrDefault ⟨0, 1 / 1000, some 0⟩ }]) ∧
    (fallbackGeometry c5wps).getLast? =
      some { lat := 0, lng := 1 / 1000,
             elev := elevOrDefault ⟨0, 1 / 1000, some 0⟩ } ∧
    (∀ w : Waypoint, ∀ v : ℚ, w.elevation_ft = some v → v ≠ 0 →
      elevOrDefault w = v) :=
  c5_fallback_endpoints_amended c5wps ⟨0, 0, some 1⟩ ⟨0, 1 / 1000, some 0⟩
    (by decide) rfl rfl

/-- Counterexample for C5 as stated: the last input waypoint has the
(present, valid) elevation `0`, but the fallback output's final point
carries elevation 5300 — exact elevation equality with the last
waypoint fails. -/
theorem c5_fallback_endpoints_cex :
    (fallbackGeometry c5wps).getLast? = some ⟨0, 1 / 1000, 5300⟩ ∧
    c5wps.getLast? = some ⟨0, 1 / 1000, some 0⟩ ∧
    (5300 : ℚ) ≠ 0 := by
  refine ⟨by with_unfolding_all rfl, rfl, by norm_num⟩

/-- Empty metadata for the C6 witness. -/
def c6m : MetaInfo := ⟨none, none, none, none⟩

/-- A 2-entry waypoint list for the C6 witness. -/
def c6wps : List Waypoint := [⟨0, 0, some 1⟩, ⟨1, 1, some 2⟩]

/-- Claim C6 (confirmed): under every routing-engine failure mode — a
thrown network/parse error, a non-`Ok` status, a missing or empty
`routes` array, or a processed geometry shorter than 10 points — the
handler still answers success (200) with the result assembled over
the fallback geometry; no engine failure is surfaced to the caller. -/
theorem c6_fallback_on_engine_failure (m : MetaInfo) (wps : List Waypoint)
    (o : FetchOutcome) (h2 : 2 ≤ wps.length)
    (hfail : o = .thrown ∨
      (∃ code routes, o = .success code routes ∧ code ≠ "Ok") ∨
      (∃ code, o = .success code none) ∨
      (∃ code, o = .success code (some [])) ∨
      (∃ g, osrmGeometry o wps = some g ∧ g.length < 10)) :
    runPipeline m (some wps) o = .ok (assembleResult m (fallbackGeometry wps)) := by
  have hfg : finalGeometry o wps = fallbackGeometry wps := by
    rcases hfail with rfl | ⟨code, routes, rfl, hcode⟩ | ⟨code, rfl⟩ |
      ⟨code, rfl⟩ | ⟨g, hg, hlen⟩
    · rfl
    · simp [finalGeometry, osrmGeometry, hcode]
    · by_cases hc : code = "Ok" <;>
        simp [finalGeometry, osrmGeometry, hc]
    · by_cases hc : code = "Ok" <;>
        simp [finalGeometry, osrmGeometry, hc]
    · simp [finalGeometry, hg, hlen]
  simp only [runPipeline]
  rw [if_neg (by omega), hfg]

/-- Witness for C6: a thrown engine error on a valid 2-waypoint list
still yields a 200 result over the fallback geometry. -/
theorem c6_fallback_witness :
    runPipeline c6m (some c6wps) .thrown =
      .ok (assembleResult c6m (fallbackGeometry c6wps)) :=
  c6_fallback_on_engine_failure c6m c6wps .thrown (by decide) (Or.inl rfl)

theorem natFloor_ratCast (q : ℚ) : ⌊(q : ℝ)⌋₊ = ⌊q⌋₊ := by
  rw [← Int.floor_toNat, ← Int.floor_toNat, Rat.floor_cast]

theorem natFloor_real_sqrt (q : ℚ) (hq : 0 ≤ q) :
    ⌊Real.sqrt (q : ℝ)⌋₊ = Nat.sqrt ⌊q⌋₊ := by
  have h1 : ((⌊q⌋₊ : ℚ)) ≤ q := Nat.floor_le hq
  have h2 : q < ⌊q⌋₊ + 1 := Nat.lt_floor_add_one q
  have hs1 : ((Nat.sqrt ⌊q⌋₊ : ℝ)) ≤ Real.sqrt (q : ℝ) := by
    rw [show ((Nat.sqrt ⌊q⌋₊ : ℝ)) =
        Real.sqrt (((Nat.sqrt ⌊q⌋₊ : ℝ)) ^ 2) from
      (Real.sqrt_sq (by positivity)).symm]
    apply Real.sqrt_le_sqrt
    have hle : (Nat.sqrt ⌊q⌋₊) ^ 2 ≤ ⌊q⌋₊ := Nat.sqrt_le' _
    calc ((Nat.sqrt ⌊q⌋₊ : ℝ)) ^ 2 = (((Nat.sqrt ⌊q⌋₊) ^ 2 : ℕ) : ℝ) := by
          push_cast
          ring
      _ ≤ ((⌊q⌋₊ : ℕ) : ℝ) := by exact_mod_cast hle
      _ ≤ ((q : ℚ) : ℝ) := by exact_mod_cast h1
  have hs2 : Real.sqrt (q : ℝ) < (Nat.sqrt ⌊q⌋₊ : ℝ) + 1 := by
    have hlt : ⌊q⌋₊ < (Nat.sqrt ⌊q⌋₊ + 1) ^ 2 := Nat.lt_succ_sqrt' _
    have h3 : ((q : ℚ) : ℝ) < ((Nat.sqrt ⌊q⌋₊ : ℝ) + 1) ^ 2 := by
      have hq1 : ((q : ℚ) : ℝ) < ((⌊q⌋₊ : ℝ)) + 1 := by exact_mod_cast h2
      have hq2 : ((⌊q⌋₊ : ℝ)) + 1 ≤ ((Nat.sqrt ⌊q⌋₊ : ℝ) + 1) ^ 2 := by
        have := hlt
        have hnat : ⌊q⌋₊ + 1 ≤ (Nat.sqrt ⌊q⌋₊ + 1) ^ 2 := hlt
        calc ((⌊q⌋₊ : ℝ)) + 1 = ((⌊q⌋₊ + 1 : ℕ) : ℝ) := by push_cast; ring
          _ ≤ (((Nat.sqrt ⌊q⌋₊ + 1) ^ 2 : ℕ) : ℝ) := by exact_mod_cast hnat
          _ = ((Nat.sqrt ⌊q⌋₊ : ℝ) + 1) ^ 2 := by push_cast; ring
      linarith
    exact (Real.sqrt_lt' (by positivity)).mpr h3
  rw [Nat.floor_eq_iff (Real.sqrt_nonneg _)]
  exact ⟨hs1, hs2⟩

theorem segStepsRaw_eq_round (a b : Waypoint) :
    segStepsRaw a b =
      ⌊Real.sqrt (((b.lat - a.lat : ℚ) : ℝ) ^ 2 + ((b.lng - a.lng : ℚ) : ℝ) ^ 2)
        / (2 / 1000 : ℝ) + 1 / 2⌋₊ := by
  set r : ℚ := (b.lat - a.lat) ^ 2 + (b.lng - a.lng) ^ 2 with hrdef
  have hr : 0 ≤ r := by positivity
  have hRnn : (0 : ℝ) ≤ (r : ℝ) := by exact_mod_cast hr
  have hcast : ((b.lat - a.lat : ℚ) : ℝ) ^ 2 + ((b.lng - a.lng : ℚ) : ℝ) ^ 2
      = (r : ℝ) := by
    rw [hrdef]
    push_cast
    ring
  have hX : Real.sqrt ((1000000 * r : ℚ) : ℝ) = 1000 * Real.sqrt (r : ℝ) := by
    have : ((1000000 * r : ℚ) : ℝ) = (1000000 : ℝ) * (r : ℝ) := by push_cast; ring
    rw [this, Real.sqrt_mul (by norm_num) (r : ℝ),
      show (1000000 : ℝ) = 1000 ^ 2 by norm_num,
      Real.sqrt_sq (by norm_num)]
  have hexpr : Real.sqrt (r : ℝ) / (2 / 1000 : ℝ) + 1 / 2
      = (Real.sqrt ((1000000 * r : ℚ) : ℝ) + 1) / 2 := by
    rw [hX]
    ring
  rw [hcast, hexpr]
  have hdiv : ⌊(Real.sqrt ((1000000 * r : ℚ) : ℝ) + 1) / 2⌋₊
      = ⌊Real.sqrt ((1000000 * r : ℚ) : ℝ) + 1⌋₊ / 2 := by
    rw [show (2 : ℝ) = ((2 : ℕ) : ℝ) by norm_num]
    exact Nat.floor_div_nat _ 2
  have hone : ⌊Real.sqrt ((1000000 * r : ℚ) : ℝ) + 1⌋₊
      = ⌊Real.sqrt ((1000000 * r : ℚ) : ℝ)⌋₊ + 1 :=
    Nat.floor_add_one (Real.sqrt_nonneg _)
  rw [hdiv, hone, natFloor_real_sqrt (1000000 * r) (by positivity)]
  rw [segStepsRaw, hrdef]

/-- Claim C8 (confirmed): per consecutive waypoint pair the fallback
emits exactly `steps` points, where `steps = max(5, round(dist /
0.002))`, `dist` is the planar Euclidean norm of the latitude and
longitude degree deltas (not geodesic), `round` is JS `Math.round`
(half-up, `⌊x + 1/2⌋` for nonnegative `x`), and the fixed minimum `5`
lies in the 3 to 5 range; so the per-segment count is at least 5 and
grows with the planar distance. -/
theorem c8_segment_steps (a b : Waypoint) :
    (segPoints a b (segSteps a b)).length = segSteps a b ∧
    segSteps a b =
      max 5 ⌊Real.sqrt (((b.lat - a.lat : ℚ) : ℝ) ^ 2 +
        ((b.lng - a.lng : ℚ) : ℝ) ^ 2) / (2 / 1000 : ℝ) + 1 / 2⌋₊ ∧
    (∀ rest : List Waypoint, fallbackSegs (a :: b :: rest) =
      segPoints a b (segSteps a b) ++ fallbackSegs (b :: rest)) ∧
    5 ≤ segSteps a b ∧ 3 ≤ 5 ∧ 5 ≤ 5 := by
  refine ⟨segPoints_length a b _, ?_, fun rest => rfl,
    le_max_left _ _, by norm_num, le_refl 5⟩
  rw [segSteps, segStepsRaw_eq_round]

end RouteTracer
